import Mathlib

/-!
Shallow embedding of the laptop recommendation system's core
(`src/recommendation_engine.py` and `src/chatbot.py`) and proofs about it.

Conventions used throughout:
* Python `float` values (prices, budgets, scores) are modelled by `ℚ`;
  the literal `1.1` of the source becomes `11/10`.
* Python `str` keys of the `usage_requirements` dict are modelled by
  `String`.  `UsageType` is a `str`-valued `Enum`, so an arbitrary key can
  be presented to the dict; `usageTable : String → Option UsageReqs` is the
  dict, `none` meaning "key not present" (so that direct indexing
  `self.usage_requirements[usage_type]` raising `KeyError` is modelled by
  propagating `none`).
* Functions that can raise return `Option`; `none` models a raised
  exception.
* Characters are ASCII; `\d`, `\s` and `\w` of the regexes are modelled by
  `Char.isDigit`, `Char.isWhitespace` and alphanumeric-or-underscore.
-/

/-- Character class `\d` of the regexes. -/
def isDigitC (c : Char) : Bool := c.isDigit

/-- Character class `\s` of the regexes. -/
def isSpaceC (c : Char) : Bool := c.isWhitespace

/-- Character class `\w` of the regexes (ASCII). -/
def isWordC (c : Char) : Bool := c.isAlpha || c.isDigit || c = '_'

/-- Case-sensitive prefix test on character lists. -/
def isPrefixOfChars : List Char → List Char → Bool
  | [], _ => true
  | _ :: _, [] => false
  | a :: as, b :: bs => a = b && isPrefixOfChars as bs

/-- Python's `pat in s` (case-sensitive substring occurrence). -/
def occursIn (pat : List Char) : List Char → Bool
  | [] => isPrefixOfChars pat []
  | c :: t => isPrefixOfChars pat (c :: t) || occursIn pat t

/-- Case-insensitive occurrence, as used by `keyword.lower() in text.lower()`
and by `re.IGNORECASE` literal alternations. -/
def occursCI (pat : String) (text : List Char) : Bool :=
  occursIn (pat.toList.map Char.toLower) (text.map Char.toLower)

/-! ## Data model (`models.py`)

`LaptopBase`/`Laptop` of `models.py`: required `brand`, `model`, `price`,
`processor`, `ram`, `storage`; optional `gpu`, `display`, `battery_life`,
`weight`, `os`. -/

structure Laptop where
  id : String
  brand : String
  model : String
  price : ℚ
  processor : String
  ram : ℤ
  storage : ℤ
  gpu : Option String := none
  display : Option String := none
  battery_life : Option ℚ := none
  weight : Option ℚ := none
  os : Option String := none
deriving DecidableEq, Repr

/-- A laptop dict together with the `"score"` key added by
`_score_laptops` (`scored_laptop = laptop.copy(); scored_laptop["score"] = score`). -/
structure Scored where
  laptop : Laptop
  score : ℚ
deriving DecidableEq, Repr

/-! ## Requirement profiles (`RecommendationEngine.__init__`) -/

/-- The per-usage `importance` dict.  A `none` field means the key is
absent from the dict (so `.get` falls back to its default). -/
structure Importance where
  price : Option ℚ := none
  ram : Option ℚ := none
  storage : Option ℚ := none
  processor : Option ℚ := none
  gpu : Option ℚ := none
  display : Option ℚ := none
  battery_life : Option ℚ := none
  weight : Option ℚ := none
deriving DecidableEq, Repr

/-- One entry of `usage_requirements`.  Every entry of the source dict
carries `min_ram` and `min_storage`, so they are plain fields (the
`.get("min_ram", 4)` / `.get("min_storage", 128)` defaults of the source
can never fire).  `gpu_required` is `.get("gpu_required", False)`. -/
structure UsageReqs where
  min_ram : ℤ
  min_storage : ℤ
  min_battery_life : Option ℚ := none
  gpu_required : Bool := false
  processor_keywords : List String
  importance : Importance
deriving DecidableEq, Repr

/-- The `UsageType.GENERAL` entry of `usage_requirements`. -/
def generalReqs : UsageReqs :=
  { min_ram := 8, min_storage := 256
    processor_keywords := ["i5", "i7", "ryzen 5"]
    importance := { price := some (4/10), battery_life := some (3/10),
                    processor := some (2/10), ram := some (1/10) } }

/-- The `usage_requirements` dict, keyed by the string value of the
`UsageType` enum; `none` models a missing key (`KeyError` on direct
indexing). -/
def usageTable : String → Option UsageReqs
  | "gaming" => some
      { min_ram := 16, min_storage := 512, gpu_required := true
        processor_keywords := ["i7", "i9", "ryzen 7", "ryzen 9"]
        importance := { gpu := some (4/10), processor := some (3/10),
                        ram := some (2/10), display := some (1/10) } }
  | "business" => some
      { min_ram := 8, min_storage := 256, min_battery_life := some 8
        processor_keywords := ["i5", "i7", "ryzen 5", "ryzen 7"]
        importance := { battery_life := some (4/10), weight := some (3/10),
                        processor := some (2/10), ram := some (1/10) } }
  | "student" => some
      { min_ram := 8, min_storage := 256, min_battery_life := some 6
        processor_keywords := ["i3", "i5", "ryzen 3", "ryzen 5"]
        importance := { price := some (4/10), battery_life := some (3/10),
                        weight := some (2/10), storage := some (1/10) } }
  | "creative" => some
      { min_ram := 16, min_storage := 512, gpu_required := true
        processor_keywords := ["i7", "i9", "ryzen 7", "ryzen 9"]
        importance := { display := some (4/10), gpu := some (3/10),
                        ram := some (2/10), processor := some (1/10) } }
  | "programming" => some
      { min_ram := 16, min_storage := 512
        processor_keywords := ["i5", "i7", "ryzen 5", "ryzen 7"]
        importance := { processor := some (4/10), ram := some (3/10),
                        battery_life := some (2/10), storage := some (1/10) } }
  | "general" => some generalReqs
  | _ => none

/-! ## Recommendation engine (`recommendation_engine.py`) -/

/-- Truthiness test `laptop.get("gpu") and laptop.get("gpu") != "None"`:
a present, non-empty, non-`"None"` GPU description. -/
def hasGpuVal : Option String → Bool
  | some s => !(s = "") && !(s = "None")
  | none => false

/-- Embedding of `RecommendationEngine._filter_laptops`.  The chained list
comprehensions filtering by budget, RAM, storage, brand (only when
`brand_preference` is truthy, i.e. a non-empty string) and GPU. -/
def filter_laptops (data : List Laptop) (budget : ℚ) (usage_type : String)
    (brand_preference : Option String) (min_ram min_storage : Option ℤ)
    (prefer_gpu : Bool) : List Laptop :=
  let usage_reqs := (usageTable usage_type).getD generalReqs
  let minRam := min_ram.getD usage_reqs.min_ram
  let minStorage := min_storage.getD usage_reqs.min_storage
  let r1 := data.filter (fun l => decide (l.price ≤ budget))
  let r2 := r1.filter (fun l => decide (minRam ≤ l.ram))
  let r3 := r2.filter (fun l => decide (minStorage ≤ l.storage))
  let r4 := match brand_preference with
    | some b => if b = "" then r3
                else r3.filter (fun l => decide (l.brand.toLower = b.toLower))
    | none => r3
  if usage_reqs.gpu_required || prefer_gpu then
    r4.filter (fun l => hasGpuVal l.gpu)
  else r4

/-- Processor sub-score: `1.0` as soon as one of the profile's keywords
occurs case-insensitively in the processor description, else `0`. -/
def processorScore (kws : List String) (proc : String) : ℚ :=
  if kws.any (fun k => occursCI k proc.toList) then 1 else 0

/-- The per-laptop score computed by the body of the `for` loop of
`_score_laptops` (profile resolved with fallback to `GENERAL`). -/
def scoreLaptop (usage_type : String) (budget : ℚ) (l : Laptop) : ℚ :=
  let reqs := (usageTable usage_type).getD generalReqs
  let imp := reqs.importance
  let s1 := imp.price.getD (25/100) * (1 - l.price / budget)
  let s2 := imp.ram.getD (15/100) * min 1 ((l.ram : ℚ) / 32)
  let s3 := imp.storage.getD (10/100) * min 1 ((l.storage : ℚ) / 1000)
  let s4 := imp.processor.getD (20/100) * processorScore reqs.processor_keywords l.processor
  let s5 := if 0 < imp.gpu.getD 0 then
      imp.gpu.getD 0 * (if hasGpuVal l.gpu then 1 else 0) else 0
  let s6 := match l.battery_life with
    | some b => imp.battery_life.getD (10/100) * min 1 (b / 15)
    | none => 0
  let s7 := match l.weight with
    | some w => imp.weight.getD (10/100) * (1 - min 1 (w / 3))
    | none => 0
  s1 + s2 + s3 + s4 + s5 + s6 + s7

/-- Attaching the score to a laptop (`laptop.copy()` plus `"score"`). -/
def addScore (usage_type : String) (budget : ℚ) (l : Laptop) : Scored :=
  ⟨l, scoreLaptop usage_type budget l⟩

/-- The sort relation of `sorted(scored_laptops, key=lambda x: x["score"],
reverse=True)`: `a` may come before `b` when `b`'s score is not larger. -/
def scoreGe (a b : Scored) : Prop := b.score ≤ a.score

instance : DecidableRel scoreGe := fun a b => inferInstanceAs (Decidable (b.score ≤ a.score))

instance : IsTotal Scored scoreGe := ⟨fun a b => le_total b.score a.score⟩

instance : IsTrans Scored scoreGe := ⟨fun _ _ _ h1 h2 => le_trans h2 h1⟩

/-- Embedding of `RecommendationEngine._score_laptops`: score each laptop, then sort
descending by score.  Python's `sorted` is a stable sort, modelled by
`List.insertionSort` (which is stable, inserting later input elements
after equal-score earlier ones). -/
def score_laptops (laptops : List Laptop) (usage_type : String) (budget : ℚ) : List Scored :=
  List.insertionSort scoreGe (laptops.map (addScore usage_type budget))

/-- Embedding of `RecommendationEngine.get_recommendations`.  The relaxed second filter
pass indexes `self.usage_requirements[usage_type]` directly, so an unknown
key raises `KeyError`, modelled by `none`. -/
def get_recommendations (data : List Laptop) (budget : ℚ) (usage_type : String)
    (brand_preference : Option String := none) (min_ram min_storage : Option ℤ := none)
    (prefer_gpu : Bool := false) (limit : ℕ := 5) : Option (List Scored) :=
  let filtered := filter_laptops data budget usage_type brand_preference
      min_ram min_storage prefer_gpu
  let filtered2 : Option (List Laptop) :=
    if filtered.isEmpty then
      match usageTable usage_type with
      | none => none
      | some reqs => some (filter_laptops data (budget * (11/10)) usage_type none
          (some reqs.min_ram) (some reqs.min_storage) prefer_gpu)
    else some filtered
  filtered2.map (fun fl => (score_laptops fl usage_type budget).take limit)

/-! ## Display-independence (for C8) -/

/-- Erase the `display` field of a laptop. -/
def eraseDisplay (l : Laptop) : Laptop := { l with display := none }

/-- Erase the `display` field of a scored laptop, keeping its score. -/
def eraseDisplayS (p : Scored) : Scored := { p with laptop := eraseDisplay p.laptop }

theorem scoreLaptop_eraseDisplay (u : String) (B : ℚ) (l : Laptop) :
    scoreLaptop u B (eraseDisplay l) = scoreLaptop u B l := rfl

theorem addScore_eraseDisplay (u : String) (B : ℚ) (l : Laptop) :
    addScore u B (eraseDisplay l) = eraseDisplayS (addScore u B l) := rfl

/-- The filter predicates never read `display`, so filtering commutes with
erasing it. -/
theorem filter_laptops_map_eraseDisplay (data : List Laptop) (B : ℚ) (u : String)
    (br : Option String) (mr ms : Option ℤ) (pg : Bool) :
    filter_laptops (data.map eraseDisplay) B u br mr ms pg
      = (filter_laptops data B u br mr ms pg).map eraseDisplay := by
  have hprice : ((fun l => decide (l.price ≤ B)) ∘ eraseDisplay)
      = (fun l : Laptop => decide (l.price ≤ B)) := funext fun l => rfl
  have hram : ∀ c : ℤ, ((fun l => decide (c ≤ l.ram)) ∘ eraseDisplay)
      = (fun l : Laptop => decide (c ≤ l.ram)) := fun c => funext fun l => rfl
  have hstor : ∀ c : ℤ, ((fun l => decide (c ≤ l.storage)) ∘ eraseDisplay)
      = (fun l : Laptop => decide (c ≤ l.storage)) := fun c => funext fun l => rfl
  have hbrand : ∀ b : String, ((fun l => decide (l.brand.toLower = b.toLower)) ∘ eraseDisplay)
      = (fun l : Laptop => decide (l.brand.toLower = b.toLower)) := fun b => funext fun l => rfl
  have hgpu : ((fun l => hasGpuVal l.gpu) ∘ eraseDisplay)
      = (fun l : Laptop => hasGpuVal l.gpu) := funext fun l => rfl
  unfold filter_laptops
  rcases br with _ | b
  · simp only []
    split_ifs <;> simp only [List.filter_map, hprice, hram, hstor, hgpu]
  · simp only []
    split_ifs <;> simp only [List.filter_map, hprice, hram, hstor, hgpu, hbrand]

/-- Scoring and sorting commute with erasing `display` (the sort key is
the score, which erasure preserves). -/
theorem score_laptops_map_eraseDisplay (fl : List Laptop) (u : String) (B : ℚ) :
    score_laptops (fl.map eraseDisplay) u B
      = (score_laptops fl u B).map eraseDisplayS := by
  unfold score_laptops
  rw [List.map_map]
  have h1 : fl.map (addScore u B ∘ eraseDisplay) = (fl.map (addScore u B)).map eraseDisplayS := by
    rw [List.map_map]
    rfl
  rw [h1]
  exact (List.map_insertionSort scoreGe scoreGe eraseDisplayS (fl.map (addScore u B))
    (fun a _ b _ => Iff.rfl)).symm

/-! ## Chatbot regular expressions (`ChatBot.__init__`)

Each compiled pattern (all with `re.IGNORECASE`) is embedded as a
positional matcher; `re.search` is "try the matcher at every position from
the left, first success wins".  Ordered alternations and optional groups
are embedded with `<|>`, which also provides the backtracking `re` does
when a later part of the pattern fails. -/

/-- Match the literal `lit` (given lower-case) case-insensitively at the
head; return the remaining input. -/
def stripLitCI : List Char → List Char → Option (List Char)
  | [], cs => some cs
  | _ :: _, [] => none
  | l :: ls, c :: cs => if c.toLower = l then stripLitCI ls cs else none

/-- Match the literal case-insensitively at the head; return the consumed
characters (in original case) and the remaining input. -/
def stripLitCI2 (lit : List Char) (cs : List Char) : Option (List Char × List Char) :=
  match lit, cs with
  | [], _ => some ([], cs)
  | _ :: _, [] => none
  | l :: ls, c :: cs' =>
    if c.toLower = l then (stripLitCI2 ls cs').map (fun p => (c :: p.1, p.2)) else none

/-- Try a matcher at every position, leftmost first (`re.search`). -/
def searchO {α : Type} (mAt : List Char → Option α) : List Char → Option α
  | [] => mAt []
  | c :: cs => mAt (c :: cs) <|> searchO mAt cs

/-- Greedy `(?:,\d{3})*` after the leading digit block of the budget
capture group. -/
def commaGroups : List Char → List Char
  | ',' :: a :: b :: c :: rest =>
    if isDigitC a && isDigitC b && isDigitC c then
      ',' :: a :: b :: c :: commaGroups rest
    else []
  | _ => []

/-- The budget capture group `(\d{3,5}(?:,\d{3})*)` at the head of the
input: a greedy run of at least 3 and at most 5 digits, then greedy comma
triples.  Returns the captured text. -/
def budgetCore (cs : List Char) : Option (List Char) :=
  let run := cs.takeWhile isDigitC
  if run.length < 3 then none
  else
    let g := run.take 5
    some (g ++ commaGroups (cs.drop g.length))

/-- Pattern fragment `\s*\$?` followed by the capture group (the common tail of budget
patterns 2-5). -/
def dollarCore (cs : List Char) : Option (List Char) :=
  match cs.dropWhile isSpaceC with
  | '$' :: r2 => budgetCore r2
  | r => budgetCore r

/-- Budget pattern 1, `\$?(\d{3,5}(?:,\d{3})*)(?:\s*(?:dollars|USD|bucks))?`,
tried at one position: the optional `\$?` consumes a leading `$` when
present (matching it empty instead can never succeed, since `$` is not a
digit).  The trailing currency-word group is optional and can always
match empty, so it affects neither success nor the capture. -/
def budget1At (cs : List Char) : Option (List Char) :=
  match cs with
  | c :: r => if c = '$' then budgetCore r else budgetCore (c :: r)
  | [] => budgetCore []

/-- Budget pattern 2, `budget\s*(?:is|of)?\s*\$?(...)`, at one position. -/
def budget2At (cs : List Char) : Option (List Char) :=
  match stripLitCI "budget".toList cs with
  | none => none
  | some r1 =>
    let r2 := r1.dropWhile isSpaceC
    ((stripLitCI "is".toList r2).bind dollarCore) <|>
    ((stripLitCI "of".toList r2).bind dollarCore) <|>
    dollarCore r2

/-- Budget pattern 3, `spend\s*(?:up to)?\s*\$?(...)`, at one position. -/
def budget3At (cs : List Char) : Option (List Char) :=
  match stripLitCI "spend".toList cs with
  | none => none
  | some r1 =>
    let r2 := r1.dropWhile isSpaceC
    ((stripLitCI "up to".toList r2).bind dollarCore) <|> dollarCore r2

/-- Budget pattern 4, `(?:under|below|less than)\s*\$?(...)`, at one
position.  The three alternatives start with distinct characters, so at
most one applies. -/
def budget4At (cs : List Char) : Option (List Char) :=
  ((stripLitCI "under".toList cs) <|> (stripLitCI "below".toList cs) <|>
   (stripLitCI "less than".toList cs)).bind dollarCore

/-- Tail `\s*(?:of)?\s*\$?(...)` of budget pattern 5. -/
def budget5c (cs : List Char) : Option (List Char) :=
  let r := cs.dropWhile isSpaceC
  ((stripLitCI "of".toList r).bind dollarCore) <|> dollarCore r

/-- Tail `\s*(?:budget|price)?\s*(?:of)?\s*\$?(...)` of budget pattern 5. -/
def budget5b (cs : List Char) : Option (List Char) :=
  let r := cs.dropWhile isSpaceC
  ((stripLitCI "budget".toList r).bind budget5c) <|>
  ((stripLitCI "price".toList r).bind budget5c) <|>
  budget5c r

/-- Budget pattern 5,
`(?:max|maximum)?\s*(?:budget|price)?\s*(?:of)?\s*\$?(...)`, at one
position (`max` is tried before `maximum`, with backtracking). -/
def budget5At (cs : List Char) : Option (List Char) :=
  ((stripLitCI "max".toList cs).bind budget5b) <|>
  ((stripLitCI "maximum".toList cs).bind budget5b) <|>
  budget5b cs

/-- The budget extraction loop of `_extract_preferences`: try the five
patterns in order, first match wins; returns the captured group text. -/
def extractBudget (msg : List Char) : Option (List Char) :=
  searchO budget1At msg <|> searchO budget2At msg <|> searchO budget3At msg <|>
  searchO budget4At msg <|> searchO budget5At msg

/-- Decimal value of a digit string. -/
def digitsToNat (ds : List Char) : ℕ :=
  ds.foldl (fun a c => 10 * a + (c.toNat - '0'.toNat)) 0

/-- Value of `float(match.group(1).replace(',', ''))` for a captured budget group
(the group consists of digits and grouping commas, so `float` always
succeeds and yields a natural number). -/
def budgetValue (g : List Char) : ℕ :=
  digitsToNat (g.filter (fun c => !(c = ',')))

/-- Keyword alternation `(?:RAM|memory)` of the RAM pattern. -/
def kwRam (cs : List Char) : Option (List Char) :=
  (stripLitCI "ram".toList cs) <|> (stripLitCI "memory".toList cs)

/-- Tail `\s*(?:of)?\s*(?:RAM|memory)` of the RAM pattern, with
backtracking over the optional `of`. -/
def ramTail (cs : List Char) : Option (List Char) :=
  let r := cs.dropWhile isSpaceC
  ((stripLitCI "of".toList r).bind (fun r2 => kwRam (r2.dropWhile isSpaceC))) <|>
  kwRam r

/-- Optional unit `(?:GB|gigs?)?` of the RAM pattern followed by the tail,
alternatives in the pattern's order, with backtracking (`gigs` is the
greedy form of `gigs?`, tried before `gig`). -/
def ramUnit (cs : List Char) : Option (List Char) :=
  ((stripLitCI "gb".toList cs).bind ramTail) <|>
  ((stripLitCI "gigs".toList cs).bind ramTail) <|>
  ((stripLitCI "gig".toList cs).bind ramTail) <|>
  ramTail cs

/-- RAM pattern `(\d+)\s*(?:GB|gigs?)?\s*(?:of)?\s*(?:RAM|memory)` at one
position; returns the captured digits of group 1 (`\d+` is greedy, and no
following pattern element can match a digit, so the run is maximal). -/
def ramAt (cs : List Char) : Option (List Char) :=
  let ds := cs.takeWhile isDigitC
  if ds.isEmpty then none
  else (ramUnit ((cs.drop ds.length).dropWhile isSpaceC)).map (fun _ => ds)

/-- Keyword alternation `(?:storage|SSD|hard drive|HDD)`, returning
(consumed text, rest). -/
def kwStorage (cs : List Char) : Option (List Char × List Char) :=
  (stripLitCI2 "storage".toList cs) <|> (stripLitCI2 "ssd".toList cs) <|>
  (stripLitCI2 "hard drive".toList cs) <|> (stripLitCI2 "hdd".toList cs)

/-- Tail `\s*(?:of)?\s*(?:storage|SSD|hard drive|HDD)` of the storage
pattern, returning (consumed text, rest). -/
def storageTail (cs : List Char) : Option (List Char × List Char) :=
  let s1 := cs.takeWhile isSpaceC
  let r1 := cs.dropWhile isSpaceC
  ((stripLitCI2 "of".toList r1).bind (fun p =>
      let s3 := p.2.takeWhile isSpaceC
      let r3 := p.2.dropWhile isSpaceC
      (kwStorage r3).map (fun q => (s1 ++ p.1 ++ s3 ++ q.1, q.2)))) <|>
  ((kwStorage r1).map (fun q => (s1 ++ q.1, q.2)))

/-- Optional unit `(?:GB|TB|gigs?)?` of the storage pattern followed by
the tail, alternatives in the pattern's order with backtracking. -/
def storageUnit (cs : List Char) : Option (List Char × List Char) :=
  ((stripLitCI2 "gb".toList cs).bind (fun p =>
      (storageTail p.2).map (fun q => (p.1 ++ q.1, q.2)))) <|>
  ((stripLitCI2 "tb".toList cs).bind (fun p =>
      (storageTail p.2).map (fun q => (p.1 ++ q.1, q.2)))) <|>
  ((stripLitCI2 "gigs".toList cs).bind (fun p =>
      (storageTail p.2).map (fun q => (p.1 ++ q.1, q.2)))) <|>
  ((stripLitCI2 "gig".toList cs).bind (fun p =>
      (storageTail p.2).map (fun q => (p.1 ++ q.1, q.2)))) <|>
  storageTail cs

/-- Storage pattern `(\d+)\s*(?:GB|TB|gigs?)?\s*(?:of)?\s*(?:storage|SSD|hard
drive|HDD)` at one position; returns (group 1 digits, group 0 whole
matched text). -/
def storageAt (cs : List Char) : Option (List Char × List Char) :=
  let ds := cs.takeWhile isDigitC
  if ds.isEmpty then none
  else
    let r := cs.drop ds.length
    let s1 := r.takeWhile isSpaceC
    (storageUnit (r.dropWhile isSpaceC)).map (fun q => (ds, ds ++ s1 ++ q.1))

/-- Search (`re.search`) of the storage pattern. -/
def storageSearch (msg : List Char) : Option (List Char × List Char) :=
  searchO storageAt msg

/-- The storage normalization of `_extract_preferences`:
`storage_value *= 1000` exactly when `"TB" in match.group(0).upper()`. -/
def storageValue (p : List Char × List Char) : ℤ :=
  let v : ℤ := (digitsToNat p.1 : ℤ)
  if occursIn "TB".toList (p.2.map Char.toUpper) then v * 1000 else v

/-- Brand pattern `(?:prefer|want|like)\s+(?:a\s+)?(\w+)(?:\s+laptop)?` at
one position, after the introducing verb: `\s+`, the optional article
`a\s+` (with backtracking), then captured `(\w+)`.  The trailing
`(?:\s+laptop)?` can always match empty and is dropped. -/
def brandWord (cs : List Char) : Option (List Char) :=
  let sp := cs.takeWhile isSpaceC
  if sp.isEmpty then none
  else
    let r := cs.dropWhile isSpaceC
    (match r with
     | c :: r2 =>
       if c.toLower = 'a' then
         let sp2 := r2.takeWhile isSpaceC
         if sp2.isEmpty then none
         else
           let w := (r2.dropWhile isSpaceC).takeWhile isWordC
           if w.isEmpty then none else some w
       else none
     | [] => none) <|>
    (let w := r.takeWhile isWordC
     if w.isEmpty then none else some w)

/-- Brand pattern at one position (the three verbs start with distinct
characters, so at most one strips). -/
def brandAt (cs : List Char) : Option (List Char) :=
  ((stripLitCI "prefer".toList cs) <|> (stripLitCI "want".toList cs) <|>
   (stripLitCI "like".toList cs)).bind brandWord

/-- The fixed brand allow-list `common_brands`. -/
def commonBrands : List (List Char) :=
  ["dell".toList, "hp".toList, "lenovo".toList, "asus".toList, "acer".toList,
   "apple".toList, "microsoft".toList, "msi".toList, "razer".toList]

/-- Brand extraction: search the pattern, lower-case group 1, keep it only
if it is a known brand. -/
def extractBrand (msg : List Char) : Option (List Char) :=
  (searchO brandAt msg).bind (fun w =>
    let b := w.map Char.toLower
    if b ∈ commonBrands then some b else none)

/-- GPU preference pattern `(?:dedicated|good|gaming)\s+(?:GPU|graphics)`
searched as a boolean. -/
def gpuAt (cs : List Char) : Option Unit :=
  ((stripLitCI "dedicated".toList cs) <|> (stripLitCI "good".toList cs) <|>
   (stripLitCI "gaming".toList cs)).bind (fun r =>
    let sp := r.takeWhile isSpaceC
    if sp.isEmpty then none
    else
      let r2 := r.dropWhile isSpaceC
      ((stripLitCI "gpu".toList r2) <|> (stripLitCI "graphics".toList r2)).map
        (fun _ => ()))

def gpuSearch (msg : List Char) : Bool := (searchO gpuAt msg).isSome

/-- The ordered usage-type pattern table (dict insertion order of
`regex_patterns["usage"]`); each regex is an alternation of literals, so
`re.search` success is literal occurrence. -/
def usageLits : List (String × List String) :=
  [("gaming", ["gaming", "games", "gamer", "play games",
               "fps", "shooter", "mmo", "rpg", "strategy", "simulation"]),
   ("business", ["business", "work", "office", "professional", "corporate",
                 "presentations", "spreadsheets", "documents", "meetings"]),
   ("student", ["student", "school", "college", "university", "campus", "education",
                "study", "studying", "coursework", "assignments", "homework"]),
   ("creative", ["creative", "design", "art", "artist", "creator",
                 "photo", "video", "editing", "photoshop", "illustrator",
                 "premiere", "after effects"]),
   ("programming", ["programming", "coding", "development", "developer", "software",
                    "code", "compile", "development", "IDE", "programming"])]

/-- Usage-type extraction: first category (in table order) one of whose
patterns matches. -/
def extractUsage (msg : List Char) : Option String :=
  (usageLits.find? (fun e => e.2.any (fun lit => occursCI lit msg))).map (fun e => e.1)

/-! ## Chatbot preference record and extraction -/

/-- The per-conversation `preferences` dict; a `none` field is an absent
key. -/
structure Prefs where
  budget : Option ℚ := none
  usage_type : Option String := none
  brand_preference : Option (List Char) := none
  min_ram : Option ℤ := none
  min_storage : Option ℤ := none
  prefer_gpu : Option Bool := none
deriving DecidableEq, Repr

/-- Embedding of `ChatBot._extract_preferences`: the six independent sub-extractions
over one utterance. -/
def extractPreferences (msg : List Char) : Prefs :=
  { budget := (extractBudget msg).map (fun g => (budgetValue g : ℚ))
    usage_type := extractUsage msg
    brand_preference := extractBrand msg
    min_ram := (searchO ramAt msg).map (fun ds => (digitsToNat ds : ℤ))
    min_storage := (storageSearch msg).map storageValue
    prefer_gpu := if gpuSearch msg then some true else none }

/-- Merge `conversation["preferences"].update(extracted)`: keys present in the
new extraction overwrite, absent keys keep the old value. -/
def mergePrefs (old new : Prefs) : Prefs :=
  { budget := new.budget <|> old.budget
    usage_type := new.usage_type <|> old.usage_type
    brand_preference := new.brand_preference <|> old.brand_preference
    min_ram := new.min_ram <|> old.min_ram
    min_storage := new.min_storage <|> old.min_storage
    prefer_gpu := new.prefer_gpu <|> old.prefer_gpu }

/-! ## Conversation coordinator (`ChatBot.process_message`) -/

/-- Python `str.strip()`. -/
def stripWS (cs : List Char) : List Char :=
  (((cs.dropWhile isSpaceC).reverse).dropWhile isSpaceC).reverse

/-- Word-boundary occurrence of one literal from an alternation guarded by
`\b ... \b`: the literal matches case-insensitively at a position whose
preceding character is not a word character (tracked by `prev`) and whose
following character is not a word character.  All greeting literals start
and end with word characters, so `\b` reduces to exactly this. -/
def boundedLitAt (lit : String) (cs : List Char) : Bool :=
  match stripLitCI lit.toList cs with
  | some r => match r with
    | [] => true
    | c :: _ => !isWordC c
  | none => false

/-- Search `\b(?:alternation)\b` tracking whether the previous character
was a word character. -/
def boundedSearch (lits : List String) : Bool → List Char → Bool
  | prev, [] => !prev && lits.any (fun l => boundedLitAt l [])
  | prev, c :: cs =>
    (!prev && lits.any (fun l => boundedLitAt l (c :: cs))) ||
    boundedSearch lits (isWordC c) cs

/-- Greeting pattern 2, `\bgood\s+(?:morning|afternoon|evening)\b`, at one
position. -/
def goodGreetAt (cs : List Char) : Bool :=
  match stripLitCI "good".toList cs with
  | some r =>
    let sp := r.takeWhile isSpaceC
    if sp.isEmpty then false
    else
      let r2 := r.dropWhile isSpaceC
      ["morning", "afternoon", "evening"].any (fun l => boundedLitAt l r2)
  | none => false

/-- Search for greeting pattern 2 with word-boundary tracking. -/
def goodGreetSearch : Bool → List Char → Bool
  | prev, [] => !prev && goodGreetAt []
  | prev, c :: cs => (!prev && goodGreetAt (c :: cs)) || goodGreetSearch (isWordC c) cs

/-- Embedding of `ChatBot._is_greeting`: the three greeting regexes
(`\b(?:hi|hello|hey|greetings|howdy)\b`, `\bgood\s+(?:morning|afternoon|evening)\b`,
`^(?:start|begin|help)$`). -/
def isGreeting (msg : List Char) : Bool :=
  boundedSearch ["hi", "hello", "hey", "greetings", "howdy"] false msg ||
  goodGreetSearch false msg ||
  ["start", "begin", "help"].any (fun w => stripLitCI w.toList msg = some [])

/-- Embedding of `ChatBot._has_sufficient_preferences`: `"budget" in preferences and
"usage_type" in preferences`. -/
def hasSufficientPreferences (p : Prefs) : Bool :=
  p.budget.isSome && p.usage_type.isSome

/-- The chatbot's replies, one constructor per distinct response text of
`process_message` / `_ask_for_missing_preferences`, carrying the data the
source interpolates into the text. -/
inductive BotReply
  /-- The greeting-branch text ending in "What's your budget for a new laptop?". -/
  | greeting
  /-- "What's your budget for a new laptop?" -/
  | askBudget
  /-- "Thanks for providing your budget ($...). What will you primarily use
  this laptop for? ..." -/
  | askUsage (budget : ℚ)
  /-- "Do you have a preferred brand? ..." -/
  | askBrand
  /-- "Can you tell me more about what you're looking for in a laptop? ..." -/
  | openQuestion
  /-- "I couldn't find any laptops matching your exact criteria. ..." -/
  | noMatch
  /-- "Based on your preferences, here are some recommended laptops: ..." -/
  | recList (recs : List Scored)
deriving DecidableEq, Repr

/-- Embedding of `ChatBot._ask_for_missing_preferences`.  The `askUsage` branch is only
reachable with `"budget"` present, so the budget is matched first. -/
def askForMissingPreferences (p : Prefs) : BotReply :=
  match p.budget with
  | none => .askBudget
  | some b =>
    if p.usage_type.isNone then .askUsage b
    else if p.brand_preference.isNone then .askBrand
    else .openQuestion

/-- Embedding of `ChatBot._get_recommendations`: convert the preference dict to engine
arguments with the source's defaults and call the engine (`limit` keeps
the engine's default `5`). -/
def getRecommendationsFromPrefs (cat : List Laptop) (p : Prefs) : Option (List Scored) :=
  get_recommendations cat (p.budget.getD 1000) (p.usage_type.getD "general")
    (p.brand_preference.map (fun b => String.mk b)) p.min_ram p.min_storage
    (p.prefer_gpu.getD false) 5

/-- One entry of `conversation["messages"]`. -/
inductive ChatMsg
  | user (text : List Char)
  | bot (reply : BotReply)
deriving DecidableEq, Repr

/-- One conversation's state in `self.conversations`. -/
structure ConvState where
  preferences : Prefs
  messages : List ChatMsg
  stage : String
deriving DecidableEq, Repr

/-- Embedding of `ChatResponse`: the reply, the optional recommendation payload, and
the merged `extracted_preferences`. -/
structure ChatResponse where
  reply : BotReply
  recommendations : Option (List Scored)
  prefs : Prefs
deriving DecidableEq, Repr

/-- Embedding of `ChatBot.process_message` for one existing conversation.  Returns the
updated conversation state and the response; a `none` response models the
`KeyError` the engine can raise, which propagates after the state
mutations already performed (the message append and preference merge
happen before any branching).  In the recommendations branch the source
returns early, so the bot reply is not appended to the history there. -/
def processMessage (cat : List Laptop) (st : ConvState) (rawMsg : List Char) :
    ConvState × Option ChatResponse :=
  let msg := stripWS rawMsg
  let st1 : ConvState := { st with messages := st.messages ++ [ChatMsg.user msg] }
  let prefs := mergePrefs st1.preferences (extractPreferences msg)
  let st2 : ConvState := { st1 with preferences := prefs }
  if st2.stage = "greeting" || isGreeting msg then
    ({ st2 with stage := "getting_preferences",
                messages := st2.messages ++ [ChatMsg.bot .greeting] },
     some { reply := .greeting, recommendations := none, prefs := prefs })
  else if hasSufficientPreferences prefs then
    match getRecommendationsFromPrefs cat prefs with
    | none => (st2, none)
    | some recs =>
      if recs.isEmpty then
        ({ st2 with messages := st2.messages ++ [ChatMsg.bot .noMatch] },
         some { reply := .noMatch, recommendations := none, prefs := prefs })
      else
        ({ st2 with stage := "recommendations" },
         some { reply := .recList (recs.take 3), recommendations := some (recs.take 3),
                prefs := prefs })
  else
    ({ st2 with messages := st2.messages ++ [ChatMsg.bot (askForMissingPreferences prefs)] },
     some { reply := askForMissingPreferences prefs, recommendations := none,
            prefs := prefs })

/-! ## Engine lemmas -/

/-- Sample laptop used by concrete witnesses. -/
def lapA : Laptop :=
  { id := "1", brand := "Dell", model := "XPS", price := 500, processor := "Intel i5",
    ram := 16, storage := 512 }

/-- Unfolding `get_recommendations` by the emptiness of the strict pass. -/
theorem get_recommendations_eq (data : List Laptop) (B : ℚ) (u : String)
    (br : Option String) (mr ms : Option ℤ) (pg : Bool) (limit : ℕ) :
    get_recommendations data B u br mr ms pg limit =
      if filter_laptops data B u br mr ms pg = [] then
        (usageTable u).map (fun reqs =>
          (score_laptops (filter_laptops data (B * (11/10)) u none
              (some reqs.min_ram) (some reqs.min_storage) pg) u B).take limit)
      else
        some ((score_laptops (filter_laptops data B u br mr ms pg) u B).take limit) := by
  unfold get_recommendations
  rcases h : filter_laptops data B u br mr ms pg with _ | ⟨x, xs⟩
  · simp only [h, List.isEmpty_nil, if_true]
    cases usageTable u <;> rfl
  · simp only [h, List.isEmpty_cons, if_false, Option.map_some']
    rfl

/-- The filter passes refine the initial budget filter. -/
theorem filter_laptops_sublist_price (data : List Laptop) (B : ℚ) (u : String)
    (br : Option String) (mr ms : Option ℤ) (pg : Bool) :
    (filter_laptops data B u br mr ms pg).Sublist
      (data.filter (fun l => decide (l.price ≤ B))) := by
  unfold filter_laptops
  simp only []
  split
  · split
    · split
      · exact ((List.filter_sublist _).trans (List.filter_sublist _)).trans
          (List.filter_sublist _)
      · exact (((List.filter_sublist _).trans (List.filter_sublist _)).trans
          (List.filter_sublist _)).trans (List.filter_sublist _)
    · exact ((List.filter_sublist _).trans (List.filter_sublist _)).trans
        (List.filter_sublist _)
  · split
    · split
      · exact (List.filter_sublist _).trans (List.filter_sublist _)
      · exact ((List.filter_sublist _).trans (List.filter_sublist _)).trans
          (List.filter_sublist _)
    · exact (List.filter_sublist _).trans (List.filter_sublist _)

/-- Membership in a strict or relaxed filter pass bounds the price by the
budget used in that pass. -/
theorem price_le_of_mem_filter_laptops {data : List Laptop} {B : ℚ} {u : String}
    {br : Option String} {mr ms : Option ℤ} {pg : Bool} {l : Laptop}
    (h : l ∈ filter_laptops data B u br mr ms pg) : l.price ≤ B := by
  have h1 := (filter_laptops_sublist_price data B u br mr ms pg).subset h
  exact of_decide_eq_true (List.mem_filter.1 h1).2

/-- The filter passes only keep laptops of the catalog, in catalog order. -/
theorem filter_laptops_sublist (data : List Laptop) (B : ℚ) (u : String)
    (br : Option String) (mr ms : Option ℤ) (pg : Bool) :
    (filter_laptops data B u br mr ms pg).Sublist data := by
  exact (filter_laptops_sublist_price data B u br mr ms pg).trans (List.filter_sublist _)

/-- Each member of `score_laptops` output is a catalog member with its
score attached. -/
theorem mem_score_laptops {fl : List Laptop} {u : String} {B : ℚ} {p : Scored}
    (h : p ∈ score_laptops fl u B) : ∃ l ∈ fl, p = addScore u B l := by
  unfold score_laptops at h
  rw [List.mem_insertionSort] at h
  rcases List.mem_map.1 h with ⟨l, hl, rfl⟩
  exact ⟨l, hl, rfl⟩

/-- Inserting an element does not disturb which equal-score elements
appear, nor their order: the equal-score fibre of `orderedInsert` is the
fibre of the input with `x` put in front exactly when `x` has that
score. -/
theorem filter_score_orderedInsert (x : Scored) (l : List Scored) (s : ℚ) :
    (List.orderedInsert scoreGe x l).filter (fun y => decide (y.score = s)) =
      if x.score = s then x :: l.filter (fun y => decide (y.score = s))
      else l.filter (fun y => decide (y.score = s)) := by
  induction l with
  | nil =>
    by_cases hx : x.score = s <;> simp [List.filter_cons, hx]
  | cons y ys ih =>
    simp only [List.orderedInsert]
    by_cases hr : scoreGe x y
    · rw [if_pos hr]
      by_cases hx : x.score = s <;> simp [List.filter_cons, hx]
    · rw [if_neg hr]
      have hr' : ¬ y.score ≤ x.score := hr
      have hxy : x.score < y.score := lt_of_not_le hr'
      by_cases hx : x.score = s
      · have hy : ¬ y.score = s := by
          intro hy
          rw [hx, hy] at hxy
          exact lt_irrefl s hxy
        simp [List.filter_cons, hx, hy, ih]
      · by_cases hy : y.score = s <;> simp [List.filter_cons, hx, hy, ih]

/-- Stability of the descending score sort: for each score value, the sort
preserves the input's equal-score subsequence exactly. -/
theorem filter_score_insertionSort (l : List Scored) (s : ℚ) :
    (List.insertionSort scoreGe l).filter (fun y => decide (y.score = s)) =
      l.filter (fun y => decide (y.score = s)) := by
  induction l with
  | nil => rfl
  | cons x xs ih =>
    simp only [List.insertionSort]
    rw [filter_score_orderedInsert]
    by_cases hx : x.score = s <;> simp [List.filter_cons, hx, ih]

/-- C2: `get_recommendations` runs the relaxed filter pass iff the strict
pass is empty; the relaxed pass multiplies the budget by 1.10, drops the
brand preference, resets `min_ram`/`min_storage` to the profile's own
values (discarding caller-supplied ones) and keeps `prefer_gpu` (and, via
the unchanged `usage_type`, the profile's `gpu_required`). -/
theorem relaxation_trigger (data : List Laptop) (B : ℚ) (u : String)
    (br : Option String) (mr ms : Option ℤ) (pg : Bool) (limit : ℕ) :
    (filter_laptops data B u br mr ms pg ≠ [] →
      get_recommendations data B u br mr ms pg limit
        = some ((score_laptops (filter_laptops data B u br mr ms pg) u B).take limit)) ∧
    (filter_laptops data B u br mr ms pg = [] →
      get_recommendations data B u br mr ms pg limit
        = (usageTable u).map (fun reqs =>
            (score_laptops (filter_laptops data (B * (11/10)) u none
                (some reqs.min_ram) (some reqs.min_storage) pg) u B).take limit)) := by
  constructor
  · intro h
    rw [get_recommendations_eq, if_neg h]
  · intro h
    rw [get_recommendations_eq, if_pos h]

/-- Witness for C2: a catalog where the strict pass succeeds, and one
(`gaming`, no GPU) where it is empty and the relaxed pass runs. -/
theorem relaxation_trigger_witness :
    get_recommendations [lapA] 1000 "general" none none none false 5
      = some ((score_laptops (filter_laptops [lapA] 1000 "general" none none none false)
          "general" 1000).take 5) ∧
    get_recommendations [lapA] 2000 "gaming" none none none false 5
      = (usageTable "gaming").map (fun reqs =>
          (score_laptops (filter_laptops [lapA] (2000 * (11/10)) "gaming" none
              (some reqs.min_ram) (some reqs.min_storage) false) "gaming" 2000).take 5) :=
  ⟨(relaxation_trigger [lapA] 1000 "general" none none none false 5).1 (by decide),
   (relaxation_trigger [lapA] 2000 "gaming" none none none false 5).2 (by decide)⟩

/-- C1: every recommended laptop costs at most the budget when the strict
pass was non-empty, and at most `1.10 × budget` when the relaxation
fallback fired. -/
theorem budget_bound (data : List Laptop) (B : ℚ) (u : String) (br : Option String)
    (mr ms : Option ℤ) (pg : Bool) (limit : ℕ) (_hB : 0 < B) (res : List Scored)
    (hres : get_recommendations data B u br mr ms pg limit = some res)
    (p : Scored) (hp : p ∈ res) :
    (filter_laptops data B u br mr ms pg ≠ [] → p.laptop.price ≤ B) ∧
    (filter_laptops data B u br mr ms pg = [] → p.laptop.price ≤ (11/10) * B) := by
  rw [get_recommendations_eq] at hres
  have key : ∀ (fl : List Laptop) (res' : List Scored),
      res' = (score_laptops fl u B).take limit → ∀ q ∈ res', ∃ l ∈ fl, Scored.laptop q = l := by
    rintro fl res' rfl q hq
    rcases mem_score_laptops (List.mem_of_mem_take hq) with ⟨l, hl, rfl⟩
    exact ⟨l, hl, rfl⟩
  constructor
  · intro h
    rw [if_neg h] at hres
    rcases key _ _ (Option.some.inj hres).symm p hp with ⟨l, hl, hq⟩
    rw [hq]
    exact price_le_of_mem_filter_laptops hl
  · intro h
    rw [if_pos h] at hres
    rcases htab : usageTable u with _ | reqs
    · rw [htab] at hres
      exact absurd hres (by simp)
    · rw [htab] at hres
      simp only [Option.map_some'] at hres
      rcases key _ _ (Option.some.inj hres).symm p hp with ⟨l, hl, hq⟩
      rw [hq, mul_comm]
      exact price_le_of_mem_filter_laptops hl

/-- Witness for C1 at a concrete catalog and budget. -/
theorem budget_bound_witness : (addScore "general" 1000 lapA).laptop.price ≤ 1000 :=
  (budget_bound [lapA] 1000 "general" none none none false 5 (by norm_num)
      [addScore "general" 1000 lapA] rfl (addScore "general" 1000 lapA)
      (List.mem_singleton.mpr rfl)).1 (by decide)

/-- C3: the returned list is sorted non-increasing by score, has length at
most `limit`, and on exact score ties preserves the catalog order (each
equal-score fibre of the output is a subsequence of the equal-score fibre
of the scored catalog). -/
theorem output_sorted_stable (data : List Laptop) (B : ℚ) (u : String) (br : Option String)
    (mr ms : Option ℤ) (pg : Bool) (limit : ℕ) (res : List Scored)
    (hres : get_recommendations data B u br mr ms pg limit = some res) :
    List.Pairwise (fun a b : Scored => b.score ≤ a.score) res ∧
    res.length ≤ limit ∧
    ∀ s : ℚ, (res.filter (fun x => decide (x.score = s))).Sublist
      ((data.map (addScore u B)).filter (fun x => decide (x.score = s))) := by
  rw [get_recommendations_eq] at hres
  have main : ∀ (fl : List Laptop), fl.Sublist data →
      ∀ res' : List Scored, res' = (score_laptops fl u B).take limit →
      List.Pairwise (fun a b : Scored => b.score ≤ a.score) res' ∧
      res'.length ≤ limit ∧
      ∀ s : ℚ, (res'.filter (fun x => decide (x.score = s))).Sublist
        ((data.map (addScore u B)).filter (fun x => decide (x.score = s))) := by
    rintro fl hfl res' rfl
    refine ⟨?_, List.length_take_le _ _, ?_⟩
    · exact List.Pairwise.sublist (List.take_sublist _ _)
        (List.sorted_insertionSort scoreGe (fl.map (addScore u B)))
    · intro s
      have h1 : ((score_laptops fl u B).take limit).filter
            (fun x => decide (x.score = s))
          |>.Sublist ((score_laptops fl u B).filter (fun x => decide (x.score = s))) :=
        List.Sublist.filter _ (List.take_sublist _ _)
      rw [score_laptops, filter_score_insertionSort] at h1
      exact h1.trans (List.Sublist.filter _ (List.Sublist.map _ hfl))
  constructor
  · split at hres
    · rcases htab : usageTable u with _ | reqs
      · rw [htab] at hres
        exact absurd hres (by simp)
      · rw [htab] at hres
        simp only [Option.map_some'] at hres
        exact (main _ (filter_laptops_sublist data (B * (11/10)) u none _ _ pg) res
          (Option.some.inj hres).symm).1
    · exact (main _ (filter_laptops_sublist data B u br mr ms pg) res
        (Option.some.inj hres).symm).1
  constructor
  · split at hres
    · rcases htab : usageTable u with _ | reqs
      · rw [htab] at hres
        exact absurd hres (by simp)
      · rw [htab] at hres
        simp only [Option.map_some'] at hres
        exact (main _ (filter_laptops_sublist data (B * (11/10)) u none _ _ pg) res
          (Option.some.inj hres).symm).2.1
    · exact (main _ (filter_laptops_sublist data B u br mr ms pg) res
        (Option.some.inj hres).symm).2.1
  · split at hres
    · rcases htab : usageTable u with _ | reqs
      · rw [htab] at hres
        exact absurd hres (by simp)
      · rw [htab] at hres
        simp only [Option.map_some'] at hres
        exact (main _ (filter_laptops_sublist data (B * (11/10)) u none _ _ pg) res
          (Option.some.inj hres).symm).2.2
    · exact (main _ (filter_laptops_sublist data B u br mr ms pg) res
        (Option.some.inj hres).symm).2.2

/-- Witness for C3 at a concrete catalog. -/
theorem output_sorted_stable_witness :
    List.Pairwise (fun a b : Scored => b.score ≤ a.score) [addScore "general" 1000 lapA] ∧
    ([addScore "general" 1000 lapA] : List Scored).length ≤ 5 :=
  have h := output_sorted_stable [lapA] 1000 "general" none none none false 5
    [addScore "general" 1000 lapA] rfl
  ⟨h.1, h.2.1⟩

/-- C8: neither filtering nor scoring reads a laptop's display
description (the nonzero `display` weights of the gaming and creative
importance tables never contribute): catalogs equal up to the `display`
field produce results equal up to the `display` field — same scores, same
order, same length. -/
theorem display_noninterference (cat1 cat2 : List Laptop) (B : ℚ) (u : String)
    (br : Option String) (mr ms : Option ℤ) (pg : Bool) (limit : ℕ)
    (h : cat1.map eraseDisplay = cat2.map eraseDisplay) :
    (get_recommendations cat1 B u br mr ms pg limit).map (List.map eraseDisplayS)
      = (get_recommendations cat2 B u br mr ms pg limit).map (List.map eraseDisplayS) := by
  have key : ∀ data : List Laptop,
      get_recommendations (data.map eraseDisplay) B u br mr ms pg limit
        = (get_recommendations data B u br mr ms pg limit).map (List.map eraseDisplayS) := by
    intro data
    rw [get_recommendations_eq, get_recommendations_eq, filter_laptops_map_eraseDisplay]
    by_cases hemp : filter_laptops data B u br mr ms pg = []
    · have hemp' : (filter_laptops data B u br mr ms pg).map eraseDisplay = [] := by
        rw [hemp]
        rfl
      rw [if_pos hemp', if_pos hemp]
      cases usageTable u with
      | none => rfl
      | some reqs =>
        simp only [Option.map_some', List.map_nil]
        rw [filter_laptops_map_eraseDisplay, score_laptops_map_eraseDisplay, List.map_take]
    · rw [if_neg (fun hc => hemp (by simpa using hc)), if_neg hemp]
      simp only [Option.map_some']
      rw [score_laptops_map_eraseDisplay, List.map_take]
  calc (get_recommendations cat1 B u br mr ms pg limit).map (List.map eraseDisplayS)
      = get_recommendations (cat1.map eraseDisplay) B u br mr ms pg limit := (key cat1).symm
    _ = get_recommendations (cat2.map eraseDisplay) B u br mr ms pg limit := by rw [h]
    _ = (get_recommendations cat2 B u br mr ms pg limit).map (List.map eraseDisplayS) := key cat2

/-- Laptop differing from `lapA` only in the display description. -/
def lapAdisp : Laptop := { lapA with display := some "15.6 inch IPS" }

/-- Witness for C8: two singleton catalogs differing only in the display
description yield the same result up to that field. -/
theorem display_noninterference_witness :
    (get_recommendations [lapA] 1000 "general" none none none false 5).map
        (List.map eraseDisplayS)
      = (get_recommendations [lapAdisp] 1000 "general" none none none false 5).map
        (List.map eraseDisplayS) :=
  display_noninterference [lapA] [lapAdisp] 1000 "general" none none none false 5 rfl

/-- C5 counterexample: with an unknown usage type and an empty strict
pass, the relaxed pass's direct `self.usage_requirements[usage_type]`
lookup raises `KeyError` (modelled by `none`), so `get_recommendations`
does not fall back to the "general" profile there. -/
theorem profile_fallback_cex :
    get_recommendations ([] : List Laptop) 500 "videography" none none none false 5 = none :=
  rfl

/-- C5 amended: the strict filter pass resolves unknown usage types by
falling back to the "general" profile, and `get_recommendations` never
raises when the usage type is a known key of the table or when the strict
pass is non-empty; only an unknown usage type combined with an empty
strict pass raises. -/
theorem profile_fallback (data : List Laptop) (B : ℚ) (u : String) (br : Option String)
    (mr ms : Option ℤ) (pg : Bool) (limit : ℕ) :
    ((usageTable u).isSome = true →
      (get_recommendations data B u br mr ms pg limit).isSome = true) ∧
    (filter_laptops data B u br mr ms pg ≠ [] →
      (get_recommendations data B u br mr ms pg limit).isSome = true) ∧
    (usageTable u = none →
      filter_laptops data B u br mr ms pg = filter_laptops data B "general" br mr ms pg) := by
  refine ⟨?_, ?_, ?_⟩
  · intro h
    rw [get_recommendations_eq]
    rcases htab : usageTable u with _ | reqs
    · rw [htab] at h
      exact absurd h (by simp)
    · split <;> simp [htab]
  · intro h
    rw [get_recommendations_eq, if_neg h]
    rfl
  · intro h
    unfold filter_laptops
    rw [h]
    rfl

/-- Witness for C5: a known usage type never raises even on an empty
catalog, and the strict pass of an unknown type equals the "general"
strict pass. -/
theorem profile_fallback_witness :
    (get_recommendations ([] : List Laptop) 500 "gaming" none none none false 5).isSome = true ∧
    filter_laptops [lapA] 500 "videography" none none none false
      = filter_laptops [lapA] 500 "general" none none none false :=
  ⟨(profile_fallback [] 500 "gaming" none none none false 5).1 (by decide),
   (profile_fallback [lapA] 500 "videography" none none none false 5).2.2 (by decide)⟩

theorem orElse_isSome {α : Type} (a b : Option α) :
    (a <|> b).isSome = (a.isSome || b.isSome) := by
  cases a <;> rfl

/-- C9: `process_message` merges the extracted fields into the
conversation's accumulator before any branching — also on greeting turns —
and `dict.update` never removes a previously set field (a field is present
afterwards iff it was extracted now or present before). -/
theorem merge_before_branching (cat : List Laptop) (st : ConvState) (rawMsg : List Char) :
    ((processMessage cat st rawMsg).1.preferences
        = mergePrefs st.preferences (extractPreferences (stripWS rawMsg))) ∧
    ((processMessage cat st rawMsg).1.preferences.budget.isSome
        = ((extractPreferences (stripWS rawMsg)).budget.isSome || st.preferences.budget.isSome)) ∧
    ((processMessage cat st rawMsg).1.preferences.usage_type.isSome
        = ((extractPreferences (stripWS rawMsg)).usage_type.isSome
            || st.preferences.usage_type.isSome)) ∧
    ((processMessage cat st rawMsg).1.preferences.brand_preference.isSome
        = ((extractPreferences (stripWS rawMsg)).brand_preference.isSome
            || st.preferences.brand_preference.isSome)) ∧
    ((processMessage cat st rawMsg).1.preferences.min_ram.isSome
        = ((extractPreferences (stripWS rawMsg)).min_ram.isSome
            || st.preferences.min_ram.isSome)) ∧
    ((processMessage cat st rawMsg).1.preferences.min_storage.isSome
        = ((extractPreferences (stripWS rawMsg)).min_storage.isSome
            || st.preferences.min_storage.isSome)) ∧
    ((processMessage cat st rawMsg).1.preferences.prefer_gpu.isSome
        = ((extractPreferences (stripWS rawMsg)).prefer_gpu.isSome
            || st.preferences.prefer_gpu.isSome)) := by
  have hmain : (processMessage cat st rawMsg).1.preferences
      = mergePrefs st.preferences (extractPreferences (stripWS rawMsg)) := by
    unfold processMessage
    simp only []
    split
    · rfl
    · split
      · split
        · rfl
        · split <;> rfl
      · rfl
  refine ⟨hmain, ?_, ?_, ?_, ?_, ?_, ?_⟩ <;>
    rw [hmain] <;> simp only [mergePrefs, orElse_isSome]

/-- C6: on a non-greeting turn, `process_message` reaches the
recommendation engine iff budget and usage type are both present in the
merged record; when they are not, the result does not depend on the
catalog at all, and a missing budget always yields the budget question
with no recommendations attached. -/
theorem sufficiency_gate (cat cat2 : List Laptop) (st : ConvState) (rawMsg : List Char)
    (hstage : st.stage ≠ "greeting") (hgr : isGreeting (stripWS rawMsg) = false) :
    (hasSufficientPreferences
        (mergePrefs st.preferences (extractPreferences (stripWS rawMsg))) = true →
      (processMessage cat st rawMsg).2
        = (match getRecommendationsFromPrefs cat
              (mergePrefs st.preferences (extractPreferences (stripWS rawMsg))) with
           | none => none
           | some recs =>
             if recs.isEmpty then
               some { reply := .noMatch, recommendations := none,
                      prefs := mergePrefs st.preferences (extractPreferences (stripWS rawMsg)) }
             else
               some { reply := .recList (recs.take 3), recommendations := some (recs.take 3),
                      prefs := mergePrefs st.preferences
                        (extractPreferences (stripWS rawMsg)) })) ∧
    (hasSufficientPreferences
        (mergePrefs st.preferences (extractPreferences (stripWS rawMsg))) = false →
      processMessage cat st rawMsg = processMessage cat2 st rawMsg) ∧
    ((mergePrefs st.preferences (extractPreferences (stripWS rawMsg))).usage_type.isSome = true →
     (mergePrefs st.preferences (extractPreferences (stripWS rawMsg))).budget = none →
      (processMessage cat st rawMsg).2
        = some { reply := .askBudget, recommendations := none,
                 prefs := mergePrefs st.preferences (extractPreferences (stripWS rawMsg)) }) := by
  have hcond : (decide (({ st with
        messages := st.messages ++ [ChatMsg.user (stripWS rawMsg)],
        preferences := mergePrefs st.preferences
          (extractPreferences (stripWS rawMsg)) } : ConvState).stage = "greeting")
      || isGreeting (stripWS rawMsg)) = false := by
    simp only [hgr, Bool.or_false, decide_eq_false_iff_not]
    exact hstage
  refine ⟨?_, ?_, ?_⟩
  · intro hsuff
    unfold processMessage
    simp only [hcond, Bool.false_eq_true, if_false, hsuff, if_true]
    split
    · rfl
    · split <;> rfl
  · intro hsuff
    unfold processMessage
    simp only [hcond, Bool.false_eq_true, if_false, hsuff]
  · intro husage hbud
    have hsuff : hasSufficientPreferences
        (mergePrefs st.preferences (extractPreferences (stripWS rawMsg))) = false := by
      unfold hasSufficientPreferences
      rw [hbud]
      rfl
    have hask : askForMissingPreferences
        (mergePrefs st.preferences (extractPreferences (stripWS rawMsg))) = .askBudget := by
      unfold askForMissingPreferences
      rw [hbud]
    unfold processMessage
    simp only [hcond, Bool.false_eq_true, if_false, hsuff, hask]

/-! ## Lemmas about the budget capture group (for C4 and C10) -/

theorem orElse_eq_some {α : Type} {a b : Option α} {v : α} (h : (a <|> b) = some v) :
    a = some v ∨ b = some v := by
  cases a
  · right
    simpa using h
  · left
    simpa using h

/-- A successful `re.search` is a successful match at some suffix
position. -/
theorem searchO_eq_some {α : Type} {mAt : List Char → Option α} {l : List Char} {v : α}
    (h : searchO mAt l = some v) : ∃ cs, cs <:+ l ∧ mAt cs = some v := by
  induction l with
  | nil => exact ⟨[], List.suffix_refl [], h⟩
  | cons c cs ih =>
    rcases orElse_eq_some h with h1 | h1
    · exact ⟨c :: cs, List.suffix_refl _, h1⟩
    · rcases ih h1 with ⟨t, ht, hm⟩
      exact ⟨t, ht.trans ⟨[c], rfl⟩, hm⟩

/-- A list not of the shape `',' :: d :: d :: d :: _` has no comma
groups. -/
theorem commaGroups_eq_nil_of_shape (t : List Char)
    (h : ∀ (a b c : Char) (rest : List Char), t = ',' :: a :: b :: c :: rest → False) :
    commaGroups t = [] := by
  unfold commaGroups
  split
  · exact absurd rfl (fun hh => h _ _ _ _ hh)
  · rfl

/-- Every element of a `(?:,\d{3})*` tail is a comma or a digit. -/
theorem commaGroups_mem (cs : List Char) :
    ∀ c ∈ commaGroups cs, c = ',' ∨ isDigitC c = true := by
  induction cs using commaGroups.induct with
  | case1 a b c rest habc ih =>
    intro x hx
    simp only [commaGroups, habc, if_true, List.mem_cons] at hx
    rw [Bool.and_eq_true, Bool.and_eq_true] at habc
    rcases hx with hx | hx | hx | hx | hx
    · left; exact hx
    · right; rw [hx]; exact habc.1.1
    · right; rw [hx]; exact habc.1.2
    · right; rw [hx]; exact habc.2
    · exact ih x hx
  | case2 a b c rest habc =>
    intro x hx
    rw [Bool.not_eq_true] at habc
    simp only [commaGroups, habc, Bool.false_eq_true, if_false] at hx
    exact absurd hx (List.not_mem_nil x)
  | case3 t h =>
    rw [commaGroups_eq_nil_of_shape t (fun a b c rest hh => h a b c rest hh)]
    intro x hx
    exact absurd hx (List.not_mem_nil x)

/-- A successful `budgetCore` capture is 3-5 digits followed by comma
triples. -/
theorem budgetCore_shape {cs g : List Char} (h : budgetCore cs = some g) :
    ∃ r5 rest, g = r5 ++ commaGroups rest ∧ 3 ≤ r5.length ∧
      ∀ c ∈ r5, isDigitC c = true := by
  unfold budgetCore at h
  by_cases hlen : (cs.takeWhile isDigitC).length < 3
  · rw [if_pos hlen] at h
    exact absurd h (by simp)
  · rw [if_neg hlen] at h
    refine ⟨(cs.takeWhile isDigitC).take 5,
      cs.drop ((cs.takeWhile isDigitC).take 5).length, (Option.some.inj h).symm, ?_, ?_⟩
    · rw [List.length_take]
      omega
    · intro c hc
      exact List.mem_takeWhile_imp (List.mem_of_mem_take hc)

/-- The comma-stripped text of a `budgetCore` capture: at least three
characters, all digits, starting with the first captured digit. -/
theorem budgetCore_digits {cs g : List Char} (h : budgetCore cs = some g) :
    3 ≤ (g.filter (fun c => !(c = ','))).length ∧
    (∀ c ∈ g.filter (fun c => !(c = ',')), isDigitC c = true) ∧
    (g.filter (fun c => !(c = ','))).head? = g.head? := by
  rcases budgetCore_shape h with ⟨r5, rest, rfl, hlen, hdig⟩
  have hr5 : r5.filter (fun c => !(c = ',')) = r5 := by
    rw [List.filter_eq_self]
    intro a ha
    have := hdig a ha
    simp only [Bool.not_eq_true']
    rw [decide_eq_false_iff_not]
    intro hc
    rw [hc] at this
    exact absurd this (by decide)
  rw [List.filter_append, hr5]
  rcases r5 with _ | ⟨d, r5t⟩
  · exact absurd hlen (by simp)
  · refine ⟨?_, ?_, rfl⟩
    · calc 3 ≤ (d :: r5t).length := hlen
        _ ≤ ((d :: r5t) ++ (commaGroups rest).filter (fun c => !(c = ','))).length := by
            rw [List.length_append]
            omega
    · intro c hc
      rcases List.mem_append.1 hc with hc | hc
      · exact hdig c hc
      · rcases List.mem_filter.1 hc with ⟨hmem, hnc⟩
        rcases commaGroups_mem rest c hmem with hcm | hcm
        · rw [hcm] at hnc
          exact absurd hnc (by decide)
        · exact hcm

/-- Folding decimal digits from accumulator `a` contributes
`a * 10 ^ length`. -/
theorem foldl_digits_acc (t : List Char) (a : ℕ) :
    t.foldl (fun a c => 10 * a + (c.toNat - '0'.toNat)) a
      = a * 10 ^ t.length + t.foldl (fun a c => 10 * a + (c.toNat - '0'.toNat)) 0 := by
  induction t generalizing a with
  | nil => simp
  | cons c t ih =>
    simp only [List.foldl, List.length_cons]
    rw [ih (10 * a + (c.toNat - '0'.toNat)), ih (10 * 0 + (c.toNat - '0'.toNat))]
    ring

/-- A digit string whose first digit is nonzero has value at least
`10 ^ (length - 1)`. -/
theorem digitsToNat_lower (d : Char) (t : List Char) (hd : isDigitC d = true)
    (h0 : d ≠ '0') : 10 ^ t.length ≤ digitsToNat (d :: t) := by
  have hlow : 49 ≤ d.toNat := by
    unfold isDigitC at hd
    simp [Char.isDigit] at hd
    rcases hd with ⟨h1, _⟩
    rcases Nat.lt_or_ge d.toNat 49 with hlt | hge
    · exfalso
      apply h0
      have h48 : d.toNat = 48 := le_antisymm (by omega) h1
      calc d = Char.ofNat d.toNat := (Char.ofNat_toNat d).symm
        _ = Char.ofNat 48 := by rw [h48]
        _ = '0' := by decide
    · exact hge
  unfold digitsToNat
  simp only [List.foldl]
  rw [foldl_digits_acc]
  have hv : 1 ≤ 10 * 0 + (d.toNat - '0'.toNat) := by
    have : ('0' : Char).toNat = 48 := rfl
    omega
  calc 10 ^ t.length = 1 * 10 ^ t.length := (one_mul _).symm
    _ ≤ (10 * 0 + (d.toNat - '0'.toNat)) * 10 ^ t.length :=
        Nat.mul_le_mul_right _ hv
    _ ≤ _ := Nat.le_add_right _ _

/-- Every pattern's capture group comes from `budgetCore`. -/
theorem dollarCore_core {cs g : List Char} (h : dollarCore cs = some g) :
    ∃ t, budgetCore t = some g := by
  unfold dollarCore at h
  split at h
  · exact ⟨_, h⟩
  · exact ⟨_, h⟩

theorem budget1At_core {cs g : List Char} (h : budget1At cs = some g) :
    ∃ t, budgetCore t = some g := by
  unfold budget1At at h
  split at h
  · split at h
    · exact ⟨_, h⟩
    · exact ⟨_, h⟩
  · exact ⟨_, h⟩

theorem budget2At_core {cs g : List Char} (h : budget2At cs = some g) :
    ∃ t, budgetCore t = some g := by
  unfold budget2At at h
  split at h
  · exact absurd h (by simp)
  · rcases orElse_eq_some h with h1 | h1
    · rcases Option.bind_eq_some.1 h1 with ⟨r, _, hr⟩
      exact dollarCore_core hr
    · rcases orElse_eq_some h1 with h2 | h2
      · rcases Option.bind_eq_some.1 h2 with ⟨r, _, hr⟩
        exact dollarCore_core hr
      · exact dollarCore_core h2

theorem budget3At_core {cs g : List Char} (h : budget3At cs = some g) :
    ∃ t, budgetCore t = some g := by
  unfold budget3At at h
  split at h
  · exact absurd h (by simp)
  · rcases orElse_eq_some h with h1 | h1
    · rcases Option.bind_eq_some.1 h1 with ⟨r, _, hr⟩
      exact dollarCore_core hr
    · exact dollarCore_core h1

theorem budget4At_core {cs g : List Char} (h : budget4At cs = some g) :
    ∃ t, budgetCore t = some g := by
  unfold budget4At at h
  rcases Option.bind_eq_some.1 h with ⟨r, _, hr⟩
  exact dollarCore_core hr

theorem budget5c_core {cs g : List Char} (h : budget5c cs = some g) :
    ∃ t, budgetCore t = some g := by
  unfold budget5c at h
  rcases orElse_eq_some h with h1 | h1
  · rcases Option.bind_eq_some.1 h1 with ⟨r, _, hr⟩
    exact dollarCore_core hr
  · exact dollarCore_core h1

theorem budget5b_core {cs g : List Char} (h : budget5b cs = some g) :
    ∃ t, budgetCore t = some g := by
  unfold budget5b at h
  rcases orElse_eq_some h with h1 | h1
  · rcases Option.bind_eq_some.1 h1 with ⟨r, _, hr⟩
    exact budget5c_core hr
  · rcases orElse_eq_some h1 with h2 | h2
    · rcases Option.bind_eq_some.1 h2 with ⟨r, _, hr⟩
      exact budget5c_core hr
    · exact budget5c_core h2

theorem budget5At_core {cs g : List Char} (h : budget5At cs = some g) :
    ∃ t, budgetCore t = some g := by
  unfold budget5At at h
  rcases orElse_eq_some h with h1 | h1
  · rcases Option.bind_eq_some.1 h1 with ⟨r, _, hr⟩
    exact budget5b_core hr
  · rcases orElse_eq_some h1 with h2 | h2
    · rcases Option.bind_eq_some.1 h2 with ⟨r, _, hr⟩
      exact budget5b_core hr
    · exact budget5b_core h2

/-- Whatever budget pattern fires, the captured group is a `budgetCore`
capture. -/
theorem extractBudget_core {msg g : List Char} (h : extractBudget msg = some g) :
    ∃ t, budgetCore t = some g := by
  unfold extractBudget at h
  rcases orElse_eq_some h with h1 | h1
  · rcases searchO_eq_some h1 with ⟨cs, _, hm⟩
    exact budget1At_core hm
  rcases orElse_eq_some h1 with h2 | h2
  · rcases searchO_eq_some h2 with ⟨cs, _, hm⟩
    exact budget2At_core hm
  rcases orElse_eq_some h2 with h3 | h3
  · rcases searchO_eq_some h3 with ⟨cs, _, hm⟩
    exact budget3At_core hm
  rcases orElse_eq_some h3 with h4 | h4
  · rcases searchO_eq_some h4 with ⟨cs, _, hm⟩
    exact budget4At_core hm
  · rcases searchO_eq_some h4 with ⟨cs, _, hm⟩
    exact budget5At_core hm

/-- Does the list start with a digit? -/
def digitHead : List Char → Bool
  | c :: _ => isDigitC c
  | [] => false

/-- Does the list start with a comma followed by three digits (so that
`(?:,\d{3})*` would consume it)? -/
def commaTriple : List Char → Bool
  | ',' :: a :: b :: c :: _ => isDigitC a && isDigitC b && isDigitC c
  | _ => false

/-- Does the list contain three consecutive digits anywhere? -/
def hasRun3 : List Char → Bool
  | a :: b :: c :: t => (isDigitC a && isDigitC b && isDigitC c) || hasRun3 (b :: c :: t)
  | _ => false

theorem hasRun3_tail {a : Char} {t : List Char} (h : hasRun3 (a :: t) = false) :
    hasRun3 t = false := by
  rcases t with _ | ⟨b, _ | ⟨c, t'⟩⟩
  · rfl
  · rfl
  · unfold hasRun3 at h
    rw [Bool.or_eq_false_iff] at h
    exact h.2

theorem takeWhile_append_all {p : Char → Bool} {l₁ : List Char} (l₂ : List Char)
    (h : ∀ a ∈ l₁, p a = true) :
    (l₁ ++ l₂).takeWhile p = l₁ ++ l₂.takeWhile p := by
  induction l₁ with
  | nil => rfl
  | cons c t ih =>
    simp only [List.cons_append, List.takeWhile_cons, h c (List.mem_cons_self c t), if_true]
    rw [ih (fun a ha => h a (List.mem_cons_of_mem c ha))]

theorem takeWhile_append_stop {p : Char → Bool} (l₁ : List Char) {x : Char} (l₂ : List Char)
    (hx : p x = false) :
    (l₁ ++ x :: l₂).takeWhile p = l₁.takeWhile p := by
  induction l₁ with
  | nil => simp [List.takeWhile_cons, hx]
  | cons c t ih =>
    simp only [List.cons_append, List.takeWhile_cons]
    split
    · rw [ih]
    · rfl

/-- Without three consecutive digits there is no 3-digit run at the
head. -/
theorem takeWhile_short_of_no_run3 {t : List Char} (h : hasRun3 t = false) :
    (t.takeWhile isDigitC).length < 3 := by
  rcases t with _ | ⟨a, _ | ⟨b, _ | ⟨c, t'⟩⟩⟩
  · simp
  · have := (List.takeWhile_sublist (l := [a]) isDigitC).length_le
    simp at this
    omega
  · have := (List.takeWhile_sublist (l := [a, b]) isDigitC).length_le
    simp at this
    omega
  · unfold hasRun3 at h
    rw [Bool.or_eq_false_iff, Bool.and_eq_false_iff, Bool.and_eq_false_iff] at h
    simp only [List.takeWhile_cons]
    rcases h.1 with h1 | h1
    · rcases h1 with h1 | h1
      · rw [h1]
        simp
      · rw [h1]
        split <;> simp
    · rw [h1]
      split
      · split <;> simp
      · simp

/-- A list not starting with a comma triple produces no comma groups. -/
theorem commaGroups_eq_nil_of_not_triple {post : List Char}
    (h : commaTriple post = false) : commaGroups post = [] := by
  unfold commaGroups
  split
  · next a b c rest =>
    have h' : (isDigitC a && isDigitC b && isDigitC c) = false := h
    rw [h']
    rfl
  · rfl

/-- Lemma: `budgetCore` fails at every position lying in a digit-run-free region
ending at a `$`. -/
theorem budgetCore_prefix_fail {t : List Char} (rest : List Char)
    (h : hasRun3 t = false) : budgetCore (t ++ '$' :: rest) = none := by
  unfold budgetCore
  rw [takeWhile_append_stop t rest (by decide)]
  rw [if_pos (takeWhile_short_of_no_run3 h)]

/-- Lemma: `budgetCore` succeeds exactly on the token digits when they are
followed by neither a digit nor a comma triple. -/
theorem budgetCore_token {ds post : List Char}
    (hall : ∀ c ∈ ds, isDigitC c = true) (h3 : 3 ≤ ds.length) (h5 : ds.length ≤ 5)
    (hp1 : digitHead post = false) (hp2 : commaTriple post = false) :
    budgetCore (ds ++ post) = some ds := by
  have hpost : post.takeWhile isDigitC = [] := by
    rcases post with _ | ⟨c, t⟩
    · rfl
    · have hp1' : isDigitC c = false := hp1
      simp [List.takeWhile_cons, hp1']
  have hrun : (ds ++ post).takeWhile isDigitC = ds := by
    rw [takeWhile_append_all post hall, hpost, List.append_nil]
  have hcomma : commaGroups post = [] := commaGroups_eq_nil_of_not_triple hp2
  unfold budgetCore
  rw [hrun, if_neg (by omega), List.take_of_length_le h5]
  show some (ds ++ commaGroups (List.drop ds.length (ds ++ post))) = some ds
  rw [List.drop_left, hcomma, List.append_nil]

/-- Budget pattern 1 finds the `$`-token leftmost when no earlier 3-digit
run exists. -/
theorem searchO_budget1_token (pre : List Char) {ds post : List Char}
    (hpre : hasRun3 pre = false)
    (hall : ∀ c ∈ ds, isDigitC c = true) (h3 : 3 ≤ ds.length) (h5 : ds.length ≤ 5)
    (hp1 : digitHead post = false) (hp2 : commaTriple post = false) :
    searchO budget1At (pre ++ ('$' :: (ds ++ post))) = some ds := by
  induction pre with
  | nil =>
    have hat : budget1At ('$' :: (ds ++ post)) = some ds := by
      show budgetCore (ds ++ post) = some ds
      exact budgetCore_token hall h3 h5 hp1 hp2
    show (budget1At ('$' :: (ds ++ post)) <|> searchO budget1At (ds ++ post)) = some ds
    rw [hat, Option.some_orElse]
  | cons a pre' ih =>
    have htail : hasRun3 pre' = false := hasRun3_tail hpre
    have hat : budget1At (a :: (pre' ++ ('$' :: (ds ++ post)))) = none := by
      show (if a = '$' then budgetCore (pre' ++ ('$' :: (ds ++ post)))
            else budgetCore (a :: (pre' ++ ('$' :: (ds ++ post))))) = none
      by_cases ha : a = '$'
      · rw [if_pos ha]
        exact budgetCore_prefix_fail (ds ++ post) htail
      · rw [if_neg ha]
        exact budgetCore_prefix_fail (t := a :: pre') (ds ++ post) hpre
    show (budget1At (a :: (pre' ++ ('$' :: (ds ++ post))))
          <|> searchO budget1At (pre' ++ ('$' :: (ds ++ post)))) = some ds
    rw [hat, Option.none_orElse]
    exact ih htail

/-! ## Keyword occurrence: a matcher can only succeed if its literal
keyword occurs in the utterance -/

theorem stripLitCI_suffix {lit cs r : List Char} (h : stripLitCI lit cs = some r) :
    r <:+ cs := by
  induction lit generalizing cs with
  | nil =>
    unfold stripLitCI at h
    cases h
    exact List.suffix_refl _
  | cons l ls ih =>
    rcases cs with _ | ⟨c, cs'⟩
    · exact absurd h (by simp [stripLitCI])
    · unfold stripLitCI at h
      split at h
      · exact (ih h).trans ⟨[c], rfl⟩
      · exact absurd h (by simp)

theorem stripLitCI_starts {lit cs r : List Char} (h : stripLitCI lit cs = some r) :
    isPrefixOfChars lit (cs.map Char.toLower) = true := by
  induction lit generalizing cs with
  | nil => rfl
  | cons l ls ih =>
    rcases cs with _ | ⟨c, cs'⟩
    · exact absurd h (by simp [stripLitCI])
    · unfold stripLitCI at h
      split at h
      · next heq =>
        simp only [List.map_cons, isPrefixOfChars, Bool.and_eq_true]
        exact ⟨by rw [heq]; simp, ih h⟩
      · exact absurd h (by simp)

theorem occursIn_append_right {pat t : List Char} (s : List Char)
    (h : isPrefixOfChars pat t = true) : occursIn pat (s ++ t) = true := by
  induction s with
  | nil =>
    rcases t with _ | ⟨c, t'⟩
    · exact h
    · show occursIn pat (c :: t') = true
      unfold occursIn
      rw [h]
      rfl
  | cons c s' ih =>
    show occursIn pat (c :: (s' ++ t)) = true
    unfold occursIn
    rw [ih]
    exact Bool.or_true _

/-- If a case-insensitive literal strips at a suffix position, the literal
occurs case-insensitively in the whole text. -/
theorem occursCI_of_strip {lit : String} {t msg r : List Char}
    (hlow : lit.toList.map Char.toLower = lit.toList)
    (hsuf : t <:+ msg) (h : stripLitCI lit.toList t = some r) :
    occursCI lit msg = true := by
  unfold occursCI
  rw [hlow]
  rcases (hsuf.map Char.toLower) with ⟨s, hs⟩
  rw [← hs]
  exact occursIn_append_right s (stripLitCI_starts h)

/-- Lemma: `stripLitCI2` is `stripLitCI` with the consumed text added. -/
theorem stripLitCI2_strip {lit cs : List Char} {p : List Char × List Char}
    (h : stripLitCI2 lit cs = some p) : stripLitCI lit cs = some p.2 := by
  induction lit generalizing cs p with
  | nil =>
    unfold stripLitCI2 at h
    cases Option.some.inj h
    rfl
  | cons l ls ih =>
    rcases cs with _ | ⟨c, cs'⟩
    · exact absurd h (by simp [stripLitCI2])
    · unfold stripLitCI2 at h
      split at h
      · next heq =>
        rcases Option.map_eq_some'.1 h with ⟨q, hq, rfl⟩
        have h2 := ih hq
        unfold stripLitCI
        rw [if_pos heq]
        exact h2
      · exact absurd h (by simp)

theorem kwRam_occurs {t msg : List Char} {r : List Char} (hsuf : t <:+ msg)
    (h : kwRam t = some r) :
    occursCI "ram" msg = true ∨ occursCI "memory" msg = true := by
  rcases orElse_eq_some h with h1 | h1
  · exact Or.inl (occursCI_of_strip (by decide) hsuf h1)
  · exact Or.inr (occursCI_of_strip (by decide) hsuf h1)

theorem ramTail_occurs {t msg : List Char} {r : List Char} (hsuf : t <:+ msg)
    (h : ramTail t = some r) :
    occursCI "ram" msg = true ∨ occursCI "memory" msg = true := by
  unfold ramTail at h
  rcases orElse_eq_some h with h1 | h1
  · rcases Option.bind_eq_some.1 h1 with ⟨r2, hr2, hkw⟩
    have hs2 : r2 <:+ msg :=
      ((stripLitCI_suffix hr2).trans (List.dropWhile_suffix _)).trans hsuf
    exact kwRam_occurs ((List.dropWhile_suffix _).trans hs2) hkw
  · exact kwRam_occurs ((List.dropWhile_suffix _).trans hsuf) h1

theorem ramUnit_occurs {t msg : List Char} {r : List Char} (hsuf : t <:+ msg)
    (h : ramUnit t = some r) :
    occursCI "ram" msg = true ∨ occursCI "memory" msg = true := by
  unfold ramUnit at h
  rcases orElse_eq_some h with h1 | h1
  · rcases Option.bind_eq_some.1 h1 with ⟨r2, hr2, ht⟩
    exact ramTail_occurs ((stripLitCI_suffix hr2).trans hsuf) ht
  rcases orElse_eq_some h1 with h2 | h2
  · rcases Option.bind_eq_some.1 h2 with ⟨r2, hr2, ht⟩
    exact ramTail_occurs ((stripLitCI_suffix hr2).trans hsuf) ht
  rcases orElse_eq_some h2 with h3 | h3
  · rcases Option.bind_eq_some.1 h3 with ⟨r2, hr2, ht⟩
    exact ramTail_occurs ((stripLitCI_suffix hr2).trans hsuf) ht
  · exact ramTail_occurs hsuf h3

theorem ramAt_occurs {cs msg : List Char} {v : List Char} (hsuf : cs <:+ msg)
    (h : ramAt cs = some v) :
    occursCI "ram" msg = true ∨ occursCI "memory" msg = true := by
  simp only [ramAt] at h
  split at h
  · exact absurd h (by simp)
  · rcases Option.map_eq_some'.1 h with ⟨u, hu, _⟩
    exact ramUnit_occurs
      (((List.dropWhile_suffix _).trans ((List.drop_suffix _ _).trans hsuf))) hu

/-- A successful RAM-pattern search requires a RAM keyword in the
utterance. -/
theorem ramSearch_occurs {msg : List Char} {v : List Char}
    (h : searchO ramAt msg = some v) :
    occursCI "ram" msg = true ∨ occursCI "memory" msg = true := by
  rcases searchO_eq_some h with ⟨cs, hsuf, hm⟩
  exact ramAt_occurs hsuf hm

theorem kwStorage_occurs {t msg : List Char} {p : List Char × List Char} (hsuf : t <:+ msg)
    (h : kwStorage t = some p) :
    occursCI "storage" msg = true ∨ occursCI "ssd" msg = true ∨
    occursCI "hard drive" msg = true ∨ occursCI "hdd" msg = true := by
  rcases orElse_eq_some h with h1 | h1
  · exact Or.inl (occursCI_of_strip (by decide) hsuf (stripLitCI2_strip h1))
  rcases orElse_eq_some h1 with h2 | h2
  · exact Or.inr (Or.inl (occursCI_of_strip (by decide) hsuf (stripLitCI2_strip h2)))
  rcases orElse_eq_some h2 with h3 | h3
  · exact Or.inr (Or.inr (Or.inl (occursCI_of_strip (by decide) hsuf (stripLitCI2_strip h3))))
  · exact Or.inr (Or.inr (Or.inr (occursCI_of_strip (by decide) hsuf (stripLitCI2_strip h3))))

theorem storageTail_occurs {t msg : List Char} {p : List Char × List Char} (hsuf : t <:+ msg)
    (h : storageTail t = some p) :
    occursCI "storage" msg = true ∨ occursCI "ssd" msg = true ∨
    occursCI "hard drive" msg = true ∨ occursCI "hdd" msg = true := by
  unfold storageTail at h
  rcases orElse_eq_some h with h1 | h1
  · rcases Option.bind_eq_some.1 h1 with ⟨q, hq, hrest⟩
    rcases Option.map_eq_some'.1 hrest with ⟨w, hw, _⟩
    have hq2 : q.2 <:+ msg :=
      ((stripLitCI_suffix (stripLitCI2_strip hq)).trans
        (List.dropWhile_suffix _)).trans hsuf
    exact kwStorage_occurs ((List.dropWhile_suffix _).trans hq2) hw
  · rcases Option.map_eq_some'.1 h1 with ⟨w, hw, _⟩
    exact kwStorage_occurs ((List.dropWhile_suffix _).trans hsuf) hw

theorem storageUnit_occurs {t msg : List Char} {p : List Char × List Char} (hsuf : t <:+ msg)
    (h : storageUnit t = some p) :
    occursCI "storage" msg = true ∨ occursCI "ssd" msg = true ∨
    occursCI "hard drive" msg = true ∨ occursCI "hdd" msg = true := by
  unfold storageUnit at h
  rcases orElse_eq_some h with h1 | h1
  · rcases Option.bind_eq_some.1 h1 with ⟨q, hq, hrest⟩
    rcases Option.map_eq_some'.1 hrest with ⟨w, hw, _⟩
    exact storageTail_occurs ((stripLitCI_suffix (stripLitCI2_strip hq)).trans hsuf) hw
  rcases orElse_eq_some h1 with h2 | h2
  · rcases Option.bind_eq_some.1 h2 with ⟨q, hq, hrest⟩
    rcases Option.map_eq_some'.1 hrest with ⟨w, hw, _⟩
    exact storageTail_occurs ((stripLitCI_suffix (stripLitCI2_strip hq)).trans hsuf) hw
  rcases orElse_eq_some h2 with h3 | h3
  · rcases Option.bind_eq_some.1 h3 with ⟨q, hq, hrest⟩
    rcases Option.map_eq_some'.1 hrest with ⟨w, hw, _⟩
    exact storageTail_occurs ((stripLitCI_suffix (stripLitCI2_strip hq)).trans hsuf) hw
  rcases orElse_eq_some h3 with h4 | h4
  · rcases Option.bind_eq_some.1 h4 with ⟨q, hq, hrest⟩
    rcases Option.map_eq_some'.1 hrest with ⟨w, hw, _⟩
    exact storageTail_occurs ((stripLitCI_suffix (stripLitCI2_strip hq)).trans hsuf) hw
  · exact storageTail_occurs hsuf h4

/-- A successful storage-pattern search requires a storage keyword in the
utterance. -/
theorem storageSearch_occurs {msg : List Char} {p : List Char × List Char}
    (h : storageSearch msg = some p) :
    occursCI "storage" msg = true ∨ occursCI "ssd" msg = true ∨
    occursCI "hard drive" msg = true ∨ occursCI "hdd" msg = true := by
  rcases searchO_eq_some h with ⟨cs, hsuf, hm⟩
  simp only [storageAt] at hm
  split at hm
  · exact absurd hm (by simp)
  · rcases Option.map_eq_some'.1 hm with ⟨w, hw, _⟩
    exact storageUnit_occurs
      ((List.dropWhile_suffix _).trans ((List.drop_suffix _ _).trans hsuf)) hw

/-- C4 counterexample: budget pattern 1 has an optional `\$?`, so the
earlier bare digit run "256" of "256GB storage and $1500" is the leftmost
match and sets the budget, even though the utterance contains the token
"$1500" with 1500 in [100, 99999]. -/
theorem budget_token_extraction_cex :
    occursIn "$1500".toList "256GB storage and $1500".toList = true ∧
    100 ≤ 1500 ∧ 1500 ≤ 99999 ∧
    (extractPreferences "256GB storage and $1500".toList).budget ≠ some 1500 ∧
    (extractPreferences "256GB storage and $1500".toList).budget = some 256 := by
  refine ⟨by decide, by norm_num, by norm_num, ?_, by decide⟩
  decide

/-- C4 amended: for an utterance `pre ++ "$" ++ ds ++ post` where `ds`
writes `N` with 3 to 5 digits, `pre` contains no run of three consecutive
digits (so the token is the leftmost `\d{3,5}` match), and `post` starts
with neither a digit nor a `,ddd` group, extraction sets `budget = N`;
and the `$N` token populates neither `min_ram` nor `min_storage`: those
are set only when a RAM/storage keyword occurs in the utterance. -/
theorem budget_token_extraction (pre ds post : List Char) (N : ℕ)
    (hall : ∀ c ∈ ds, isDigitC c = true) (h3 : 3 ≤ ds.length) (h5 : ds.length ≤ 5)
    (hval : digitsToNat ds = N)
    (hpre : hasRun3 pre = false)
    (hp1 : digitHead post = false) (hp2 : commaTriple post = false) :
    (extractPreferences (pre ++ ('$' :: (ds ++ post)))).budget = some (N : ℚ) ∧
    (occursCI "ram" (pre ++ ('$' :: (ds ++ post))) = false →
     occursCI "memory" (pre ++ ('$' :: (ds ++ post))) = false →
      (extractPreferences (pre ++ ('$' :: (ds ++ post)))).min_ram = none) ∧
    (occursCI "storage" (pre ++ ('$' :: (ds ++ post))) = false →
     occursCI "ssd" (pre ++ ('$' :: (ds ++ post))) = false →
     occursCI "hard drive" (pre ++ ('$' :: (ds ++ post))) = false →
     occursCI "hdd" (pre ++ ('$' :: (ds ++ post))) = false →
      (extractPreferences (pre ++ ('$' :: (ds ++ post)))).min_storage = none) := by
  refine ⟨?_, ?_, ?_⟩
  · have hbud : extractBudget (pre ++ ('$' :: (ds ++ post))) = some ds := by
      unfold extractBudget
      rw [searchO_budget1_token pre hpre hall h3 h5 hp1 hp2, Option.some_orElse]
    have hfield : (extractPreferences (pre ++ ('$' :: (ds ++ post)))).budget
        = (extractBudget (pre ++ ('$' :: (ds ++ post)))).map
            (fun g => (budgetValue g : ℚ)) := rfl
    rw [hfield, hbud, Option.map_some']
    have hfil : ds.filter (fun c => !(c = ',')) = ds := by
      rw [List.filter_eq_self]
      intro a ha
      have hd := hall a ha
      simp only [Bool.not_eq_true']
      rw [decide_eq_false_iff_not]
      intro hc
      rw [hc] at hd
      exact absurd hd (by decide)
    unfold budgetValue
    rw [hfil, hval]
  · intro hr hm
    have hfield : (extractPreferences (pre ++ ('$' :: (ds ++ post)))).min_ram
        = (searchO ramAt (pre ++ ('$' :: (ds ++ post)))).map
            (fun ds => (digitsToNat ds : ℤ)) := rfl
    rw [hfield]
    rcases hs : searchO ramAt (pre ++ ('$' :: (ds ++ post))) with _ | v
    · rfl
    · rcases ramSearch_occurs hs with hx | hx
      · rw [hx] at hr
        exact absurd hr (by simp)
      · rw [hx] at hm
        exact absurd hm (by simp)
  · intro h1 h2 h3' h4
    have hfield : (extractPreferences (pre ++ ('$' :: (ds ++ post)))).min_storage
        = (storageSearch (pre ++ ('$' :: (ds ++ post)))).map storageValue := rfl
    rw [hfield]
    rcases hs : storageSearch (pre ++ ('$' :: (ds ++ post))) with _ | v
    · rfl
    · rcases storageSearch_occurs hs with hx | hx | hx | hx
      · rw [hx] at h1
        exact absurd h1 (by simp)
      · rw [hx] at h2
        exact absurd h2 (by simp)
      · rw [hx] at h3'
        exact absurd h3' (by simp)
      · rw [hx] at h4
        exact absurd h4 (by simp)

/-- Witness for C4 at the utterance "I can pay $1500 now". -/
theorem budget_token_extraction_witness :
    (extractPreferences ("I can pay ".toList
        ++ ('$' :: ("1500".toList ++ " now".toList)))).budget = some 1500 ∧
    (extractPreferences ("I can pay ".toList
        ++ ('$' :: ("1500".toList ++ " now".toList)))).min_ram = none ∧
    (extractPreferences ("I can pay ".toList
        ++ ('$' :: ("1500".toList ++ " now".toList)))).min_storage = none := by
  have h := budget_token_extraction "I can pay ".toList "1500".toList " now".toList 1500
    (by decide) (by decide) (by decide) (by decide) (by decide) (by decide) (by decide)
  exact ⟨h.1, h.2.1 (by decide) (by decide),
    h.2.2 (by decide) (by decide) (by decide) (by decide)⟩

/-- C10 counterexample: `\d{3,5}` happily matches digit runs with leading
zeros, so "$007" sets the budget to 7, which is below 100. -/
theorem budget_min_digits_cex :
    (extractPreferences "$007".toList).budget = some 7 ∧ ¬ (100 : ℚ) ≤ 7 := by
  constructor
  · decide
  · norm_num

/-- C10 amended: whenever a budget is extracted, the captured group
consists of at least 3 digits (after stripping grouping commas), so the
value is at least 100 unless the capture has a leading zero; and a bare
dollar amount of fewer than three digits such as "$99" never sets the
budget. -/
theorem budget_min_digits (msg g : List Char) (h : extractBudget msg = some g) :
    3 ≤ (g.filter (fun c => !(c = ','))).length ∧
    (∀ c ∈ g.filter (fun c => !(c = ',')), isDigitC c = true) ∧
    ((g.filter (fun c => !(c = ','))).head? ≠ some '0' → 100 ≤ budgetValue g) ∧
    extractBudget "$99".toList = none := by
  rcases extractBudget_core h with ⟨t, ht⟩
  rcases budgetCore_digits ht with ⟨hlen, hdig, _⟩
  refine ⟨hlen, hdig, ?_, by decide⟩
  intro h0
  unfold budgetValue
  rcases hl : g.filter (fun c => !(c = ',')) with _ | ⟨d, ds⟩
  · rw [hl] at hlen
    exact absurd hlen (by simp)
  · rw [hl] at hlen hdig h0
    have hd0 : d ≠ '0' := fun hh => h0 (by rw [hh]; rfl)
    have hd : isDigitC d = true := hdig d (List.mem_cons_self d ds)
    calc (100 : ℕ) = 10 ^ 2 := by norm_num
      _ ≤ 10 ^ ds.length := by
          apply Nat.pow_le_pow_right (by norm_num)
          simp only [List.length_cons] at hlen
          omega
      _ ≤ digitsToNat (d :: ds) := digitsToNat_lower d ds hd hd0

/-- Witness for C10 at the utterance "$500". -/
theorem budget_min_digits_witness :
    3 ≤ ("500".toList.filter (fun c => !(c = ','))).length ∧
    (∀ c ∈ "500".toList.filter (fun c => !(c = ',')), isDigitC c = true) ∧
    100 ≤ budgetValue "500".toList ∧
    extractBudget "$99".toList = none := by
  have h := budget_min_digits "$500".toList "500".toList (by decide)
  exact ⟨h.1, h.2.1, h.2.2.1 (by decide), h.2.2.2⟩

/-- C7: whenever the storage pattern matches, `min_storage` is the
captured integer of group 1, multiplied by 1000 exactly when the whole
matched text contains "TB" case-insensitively (the source checks
`"TB" in match.group(0).upper()`), and taken as GB unchanged otherwise. -/
theorem storage_tb_normalization (msg g1 g0 : List Char)
    (h : storageSearch msg = some (g1, g0)) :
    (extractPreferences msg).min_storage
      = some (if occursIn "TB".toList (g0.map Char.toUpper)
              then (digitsToNat g1 : ℤ) * 1000 else (digitsToNat g1 : ℤ)) := by
  have hfield : (extractPreferences msg).min_storage = (storageSearch msg).map storageValue :=
    rfl
  rw [hfield, h, Option.map_some']
  unfold storageValue
  split <;> rfl

/-- Witness for C7: "2 TB of SSD" matches with unit TB and normalizes to
2000 GB. -/
theorem storage_tb_normalization_witness :
    (extractPreferences "2 TB of SSD".toList).min_storage = some 2000 := by
  have h := storage_tb_normalization "2 TB of SSD".toList "2".toList "2 TB of SSD".toList
    (by decide)
  rw [h]
  decide

/-- Conversation state with only the usage type collected. -/
def convGaming : ConvState :=
  { preferences := { usage_type := some "gaming" }, messages := [],
    stage := "getting_preferences" }

/-- Conversation state with budget and usage type collected. -/
def convSuff : ConvState :=
  { preferences := { budget := some 800, usage_type := some "general" }, messages := [],
    stage := "getting_preferences" }

/-- Witness for C6 on concrete conversation states: a sufficient record
reaches the engine branch; an insufficient one is catalog-independent and
gets the budget question. -/
theorem sufficiency_gate_witness :
    ((processMessage [lapA] convSuff "thanks".toList).2
      = (match getRecommendationsFromPrefs [lapA]
            (mergePrefs convSuff.preferences (extractPreferences (stripWS "thanks".toList))) with
         | none => none
         | some recs =>
           if recs.isEmpty then
             some { reply := .noMatch, recommendations := none,
                    prefs := mergePrefs convSuff.preferences
                      (extractPreferences (stripWS "thanks".toList)) }
           else
             some { reply := .recList (recs.take 3), recommendations := some (recs.take 3),
                    prefs := mergePrefs convSuff.preferences
                      (extractPreferences (stripWS "thanks".toList)) })) ∧
    (processMessage [lapA] convGaming "thanks".toList
      = processMessage [] convGaming "thanks".toList) ∧
    ((processMessage [lapA] convGaming "thanks".toList).2
      = some { reply := .askBudget, recommendations := none,
               prefs := mergePrefs convGaming.preferences
                 (extractPreferences (stripWS "thanks".toList)) }) :=
  ⟨(sufficiency_gate [lapA] [] convSuff "thanks".toList (by decide) (by decide)).1 (by decide),
   (sufficiency_gate [lapA] [] convGaming "thanks".toList (by decide) (by decide)).2.1
     (by decide),
   (sufficiency_gate [lapA] [] convGaming "thanks".toList (by decide) (by decide)).2.2
     (by decide) (by decide)⟩

section ChatScratch

example : isGreeting "hello there".toList = true := by decide

example : isGreeting "this is my budget".toList = false := by decide

example : isGreeting "good morning".toList = true := by decide

example : isGreeting "start".toList = true := by decide

example : isGreeting "a goodbye evening".toList = false := by decide

example : isGreeting "heyday of greetings".toList = true := by decide

example : extractBudget "I need a laptop under $1500".toList = some "1500".toList := by decide

example : (extractPreferences "I need a laptop for gaming under $1500 with 16GB of RAM".toList)
    = { budget := some 1500, usage_type := some "gaming", min_ram := some 16 } := by decide

example : (extractPreferences "2 TB of SSD".toList).min_storage = some 2000 := by decide

example : (extractPreferences "512GB SSD".toList).min_storage = some 512 := by decide

example : (extractPreferences "I want an Asus with a dedicated GPU".toList).prefer_gpu
    = some true := by decide

example : extractBrand "I would like an asus laptop".toList = none := by decide

example : extractBrand "I like asus laptops".toList = some "asus".toList := by decide

example : storageSearch "1tb hard drive".toList = some ("1".toList, "1tb hard drive".toList) := by
  decide

example : storageSearch "5 gigstorage".toList = some ("5".toList, "5 gigstorage".toList) := by
  decide

example : storageSearch "256GB storage and $1500".toList
    = some ("256".toList, "256GB storage".toList) := by decide

example : (searchO ramAt "8 of memory".toList) = some "8".toList := by decide

example : extractBrand "I prefer a Dell laptop".toList = some "dell".toList := by decide

example : extractBudget "256GB storage and $1500".toList = some "256".toList := by decide

example : extractBudget "$99".toList = none := by decide

example : extractBudget "$007".toList = some "007".toList := by decide

example : extractBudget "my budget is 12,500 dollars".toList = some "500".toList := by decide

example : extractBudget "spend $250,500 please".toList = some "250,500".toList := by decide

example : budgetValue "250,500".toList = 250500 := by decide

end ChatScratch
